import Mathlib

/-
Verification of the block-level state-transition orchestrator
(src/lib/runBlock.js) of the ethereumjs-vm repository.

The JavaScript source is shallowly embedded below.  Machine integers
(bn.js big numbers, Buffers) are modelled as Nat (all quantities in the
source are non-negative arbitrary-precision big numbers); byte buffers
holding big-endian numbers are modelled by their numeric value, and
BN.toArrayLike(Buffer) by an explicit big-endian digit list.  The
callback pipeline (async.series / async.eachSeries) is strictly
sequential in the source, so it is embedded as a sequential pure
function.  External collaborators (the beforeBlock hook outcome, the
transaction executor runTx, the state-store account lookup, the trie
commit) are inputs of the model, carried in an Env structure.
-/

namespace RunBlock

/-- Addresses are abstract keys of the account store. -/
abbrev Addr := Nat

/-- The fixed descriptive fragments appended by the four commitment
checks of parseBlockResults (validation mode). -/
inductive Frag where
  | receiptTrie
  | bloom
  | gasUsed
  | stateRoot
deriving DecidableEq, Repr

/-- Errors surfaced through the callback channel.  Errors produced by
external collaborators (hook, executor, account store, trie commit) are
abstract payloads tagged with their provenance; the two errors built by
runBlock.js itself (invalid input, line 22, and the gas-limit admission
error, line 73) are dedicated constructors.  A validation error is the
combined error built at lines 185-197: the stringified previous error
(if any) followed by the fixed fragments of every failing check, in
check order. -/
inductive Err where
  | invalidInput
  | gasLimitExceeded
  | hook (n : Nat)
  | exec (n : Nat)
  | account (n : Nat)
  | commitFail (n : Nat)
  | validation (base : Option Err) (frags : List Frag)

/-- vm field of a transaction-executor result: result.vm.exception is 0
when an exception occurred and nonzero (1) when it did not (comment at
line 105 of the source); result.vm.logs may be absent (line 102 uses
result.vm.logs or an empty list). -/
structure VmResult where
  exception : Nat
  logs : Option (List Nat)

/-- Result passed by the external executor runTx on success.  The
postBalances and postRoot fields model the state-store mutation the
executor performed (external to runBlock.js): after a successful runTx
the current trie contents and root are whatever the executor left. -/
structure TxResult where
  gasUsed : Nat
  bloom : Nat
  vm : VmResult
  postBalances : Addr → Nat
  postRoot : Nat

/-- A transaction as seen by runBlock.js: only its declared gas limit
is read (line 71). -/
structure Tx where
  gasLimit : Nat

/-- The serialized receipt tuple of lines 104-115.  rawTxReceipt and
txReceipt hold the same four values, so a single structure models both:
status, cumulative gas as big-endian bytes, a bloom bit-vector and the
logs. -/
structure RawReceipt where
  status : Nat
  gasUsedBytes : List Nat
  bitvector : Nat
  logs : List Nat
deriving DecidableEq, Repr

/-- Block header fields read or written by runBlock.js.  The declared
receipt-trie commitment is modelled by the insertion list it commits to
(the trie hash is injective on contents in this abstraction). -/
structure Header where
  number : Nat
  coinbase : Addr
  gasLimit : Nat
  gasUsed : Nat
  bloom : Nat
  stateRoot : Nat
  receiptTrie : List (Nat × RawReceipt)

/-- An ommer (uncle) header: runBlock.js reads its number and coinbase
(lines 140, 147). -/
structure OmmerHeader where
  number : Nat
  coinbase : Addr

structure Block where
  header : Header
  transactions : List Tx
  uncleHeaders : List OmmerHeader

/-- Modelled from the spec: the state store contract (spec section 6;
the merkle-patricia-tree / stateManager implementation is not under
src/).  A store holds a root pointer, the account balances, and the
checkpoint stack; checkpoint pushes the current (root, contents) pair,
revert pops it and restores both, commit pops it keeping the current
values. -/
structure Store where
  root : Nat
  balances : Addr → Nat
  checkpoints : List (Nat × (Addr → Nat))

def Store.checkpoint (s : Store) : Store :=
  { s with checkpoints := (s.root, s.balances) :: s.checkpoints }

def Store.revert (s : Store) : Store :=
  match s.checkpoints with
  | [] => s
  | (r, b) :: rest => { root := r, balances := b, checkpoints := rest }

def Store.commitCk (s : Store) : Store :=
  match s.checkpoints with
  | [] => s
  | _ :: rest => { s with checkpoints := rest }

/-- An entry of the txResults array (line 84: txResults.push(result)).
Modelled from the spec for the failure case: per spec section 4.2 step
3, on executor failure the value occupying the result slot of the
callback is the raw executor error, so a failed entry carries that
error (runTx itself is not under src/). -/
inductive TxEntry where
  | ok (r : TxResult)
  | failed (e : Err)

/-- External collaborators of one runBlock invocation.  beforeBlockErr
is the error (if any) the beforeBlock hook passes to its continuation;
runTx gives the executor outcome for the i-th executed transaction;
getAccountErr gives the account-store lookup error (if any) per
address; rootOf abstracts the trie hash recomputed after putAccount;
commitErr is the error (if any) passed by trie.commit to its
callback. -/
structure Env where
  beforeBlockErr : Option Err
  runTx : Nat → Except Err TxResult
  getAccountErr : Addr → Option Err
  rootOf : (Addr → Nat) → Nat
  commitErr : Option Err

/-- BN.toArrayLike(Buffer): minimal big-endian byte sequence of a
non-negative big number, a single zero byte for zero. -/
def beBytesAux : Nat → Nat → List Nat
  | 0, _ => []
  | fuel + 1, n => if n = 0 then [] else beBytesAux fuel (n / 256) ++ [n % 256]

def beBytes (n : Nat) : List Nat :=
  if n = 0 then [0] else beBytesAux n n

/-- The mutable accumulators of one block run, threaded through the
transaction loop: the closure variables gasUsed, bloom (the aggregate),
receipts, txResults, the receipt trie insertions, validReceiptCount,
the state store, and the current value of the header bloom field (which
line 99 overwrites in generate mode). -/
structure TxLoopState where
  gasUsed : Nat
  bloom : Nat
  receipts : List (Option RawReceipt)
  txResults : List TxEntry
  trie : List (Nat × RawReceipt)
  validReceiptCount : Nat
  store : Store
  headerBloom : Nat

/-- Loop state at the start of a block run (lines 31-36): zero gas,
empty aggregate bloom, empty arrays, empty receipt trie, and the header
bloom still holding its incoming value. -/
def initLoopState (blk : Block) (s : Store) : TxLoopState :=
  { gasUsed := 0
    bloom := 0
    receipts := []
    txResults := []
    trie := []
    validReceiptCount := 0
    store := s
    headerBloom := blk.header.bloom }

/-- The receipt tuple of lines 104-115 for an executor result r at a
cumulative gas value: status is 1 when the vm exception field is truthy
(nonzero, meaning no exception occurred) and 0 otherwise, the
cumulative gas as big-endian bytes, the bloom bit-vector of this
transaction (result.bloom.bitvector, line 107), and its logs. -/
def mkReceipt (r : TxResult) (cumGas : Nat) : RawReceipt :=
  { status := if r.vm.exception ≠ 0 then 1 else 0
    gasUsedBytes := beBytes cumGas
    bitvector := r.bloom
    logs := r.vm.logs.getD [] }

/-- processTx (lines 70-123): admission check against the block gas
limit, then the executor; on executor failure push the result entry and
a null receipt and stop with the error; on success accumulate gas, OR
the transaction bloom into the aggregate, mirror the aggregate into the
header bloom field when generating, build the receipt tuple and insert
it into the receipt trie keyed by validReceiptCount. -/
def processTx (env : Env) (hdr : Header) (generate : Bool) (i : Nat) (tx : Tx)
    (s : TxLoopState) : TxLoopState × Option Err :=
  if hdr.gasLimit < tx.gasLimit + s.gasUsed then
    (s, some Err.gasLimitExceeded)
  else
    match env.runTx i with
    | Except.error e =>
        ({ s with
            txResults := s.txResults ++ [TxEntry.failed e]
            receipts := s.receipts ++ [none] }, some e)
    | Except.ok r =>
        let gas := s.gasUsed + r.gasUsed
        let agg := Nat.lor s.bloom r.bloom
        let rcpt : RawReceipt := mkReceipt r gas
        ({ s with
            gasUsed := gas
            bloom := agg
            txResults := s.txResults ++ [TxEntry.ok r]
            receipts := s.receipts ++ [some rcpt]
            trie := s.trie ++ [(s.validReceiptCount, rcpt)]
            validReceiptCount := s.validReceiptCount + 1
            store := { s.store with balances := r.postBalances, root := r.postRoot }
            headerBloom := if generate then agg else s.headerBloom }, none)

/-- processTransactions (lines 65-124): async.eachSeries over the
transactions, halting on the first error; the outer-scope accumulators
keep the entries pushed so far. -/
def processTransactions (env : Env) (hdr : Header) (generate : Bool) :
    List Tx → Nat → TxLoopState → TxLoopState × Option Err
  | [], _, s => (s, none)
  | tx :: rest, i, s =>
    match processTx env hdr generate i tx s with
    | (s1, some e) => (s1, some e)
    | (s1, none) => processTransactions env hdr generate rest (i + 1) s1

/-- Modelled from the spec: the value of the consensus parameter
common.param of pow minerReward read at lines 139 and 153
(ethereumjs-common is not under src/); spec section 8 gives its value
as 5_000_000_000_000_000_000. -/
def minerRewardParam : Nat := 5000000000000000000

/-- The per-ommer reward of lines 139-145: heightDiff is the (signed)
big-number difference of the block number and the ommer number, the
reward is (8 - heightDiff) times (minerReward divided by 8, truncated),
clamped to zero from below. -/
def ommerReward (blockNumber ommerNumber : Nat) : Nat :=
  let heightDiff : Int := (blockNumber : Int) - (ommerNumber : Int)
  let reward : Int := (8 - heightDiff) * ((minerRewardParam / 8 : Nat) : Int)
  if reward < 0 then 0 else reward.toNat

/-- rewardAccount (lines 160-167): read the account (the lookup may
fail), add the reward to its balance, write it back (recomputing the
trie root). -/
def rewardAccount (env : Env) (st : Store) (address : Addr) (reward : Nat) :
    Store × Option Err :=
  match env.getAccountErr address with
  | some e => (st, some e)
  | none =>
    let b := fun a => if a = address then st.balances a + reward else st.balances a
    ({ st with balances := b, root := env.rootOf b }, none)

/-- rewardOmmers (lines 136-149): credit each ommer its reward,
halting on the first account error. -/
def rewardOmmers (env : Env) (blockNumber : Nat) :
    List OmmerHeader → Store → Store × Option Err
  | [], st => (st, none)
  | om :: rest, st =>
    match rewardAccount env st om.coinbase (ommerReward blockNumber om.number) with
    | (st1, some e) => (st1, some e)
    | (st1, none) => rewardOmmers env blockNumber rest st1

/-- payOmmersAndMiner (lines 127-168): ommer rewards first, then the
miner reward minerReward + (minerReward divided by 32) times the ommer
count, credited to the block coinbase. -/
def payOmmersAndMiner (env : Env) (blk : Block) (st : Store) : Store × Option Err :=
  match rewardOmmers env blk.header.number blk.uncleHeaders st with
  | (st1, some e) => (st1, some e)
  | (st1, none) =>
    rewardAccount env st1 blk.header.coinbase
      (minerRewardParam + (minerRewardParam / 32) * blk.uncleHeaders.length)

/-- The result object built at lines 202-206. -/
structure BlockResult where
  receipts : List (Option RawReceipt)
  results : List TxEntry
  error : Option Err

/-- Externally observable events of one invocation: the two lifecycle
hook emissions and the final callback, in emission order. -/
inductive Event where
  | beforeBlock
  | afterBlock (r : BlockResult)
  | cbCall (e : Option Err) (r : Option BlockResult)

/-- The observable outcome of one runBlock invocation: the final state
store, the block header (mutated in place in generate mode; none when
no block was supplied), the receipt-trie insertions, the event trace,
and the error and result given to the callback. -/
structure Outcome where
  store : Store
  header : Option Header
  receiptTrie : List (Nat × RawReceipt)
  trace : List Event
  cbErr : Option Err
  cbResult : Option BlockResult

/-- The async.series pipeline of lines 46-50 up to (not including)
parseBlockResults: beforeBlock, then the transaction loop, then the
rewards, halting at the first error. -/
def runSeries (env : Env) (generate : Bool) (blk : Block) (s : Store) :
    TxLoopState × Option Err :=
  match env.beforeBlockErr with
  | some e => (initLoopState blk s, some e)
  | none =>
    match processTransactions env blk.header generate blk.transactions 0
        (initLoopState blk s) with
    | (ls, some e) => (ls, some e)
    | (ls, none) =>
      match payOmmersAndMiner env blk ls.store with
      | (st2, err2) => ({ ls with store := st2 }, err2)

/-- The four commitment checks of lines 185-198, in source order; each
failing check contributes its fragment.  The receipt-trie check only
runs when the trie is non-empty (the root of an empty trie is falsy). -/
def validationFrags (trie : List (Nat × RawReceipt)) (bloomAgg gasAcc stRoot : Nat)
    (hdr : Header) : List Frag :=
  (if trie ≠ [] ∧ trie ≠ hdr.receiptTrie then [Frag.receiptTrie] else []) ++
  (if bloomAgg ≠ hdr.bloom then [Frag.bloom] else []) ++
  (if gasAcc ≠ hdr.gasUsed then [Frag.gasUsed] else []) ++
  (if stRoot ≠ hdr.stateRoot then [Frag.stateRoot] else [])

/-- The error accumulation of lines 185-198: when no check fails the
incoming error (from trie.commit) is left untouched; otherwise the
combined error holds the incoming error and the failing fragments. -/
def applyChecks (errBefore : Option Err) (fr : List Frag) : Option Err :=
  if fr = [] then errBefore else some (Err.validation errBefore fr)

/-- parseBlockResults (lines 171-211).  On an error from the series:
revert the checkpoint and call back with the error only.  Otherwise: in
generate mode stamp the current root into the header, commit, run the
commitment checks in validation mode, build the result object, fire
afterBlock with it, and call back with the (possibly validation) error
and the result. -/
def parseBlockResults (env : Env) (generate : Bool) (blk : Block)
    (ls : TxLoopState) (err : Option Err) : Outcome :=
  match err with
  | some e =>
      { store := ls.store.revert
        header := some { blk.header with bloom := ls.headerBloom }
        receiptTrie := ls.trie
        trace := [Event.beforeBlock, Event.cbCall (some e) none]
        cbErr := some e
        cbResult := none }
  | none =>
      let hdr0 : Header := { blk.header with bloom := ls.headerBloom }
      let hdr1 : Header := if generate then { hdr0 with stateRoot := ls.store.root } else hdr0
      let stC := ls.store.commitCk
      let errV : Option Err :=
        if generate then env.commitErr
        else applyChecks env.commitErr
          (validationFrags ls.trie ls.bloom ls.gasUsed stC.root hdr1)
      let result : BlockResult :=
        { receipts := ls.receipts, results := ls.txResults, error := errV }
      { store := stC
        header := some hdr1
        receiptTrie := ls.trie
        trace := [Event.beforeBlock, Event.afterBlock result, Event.cbCall errV (some result)]
        cbErr := errV
        cbResult := some result }

/-- The options object: the block, the generate flag (line 29 coerces
it to a boolean), and the optional root override (line 39). -/
structure Opts where
  block : Option Block
  generate : Bool
  root : Option Nat

/-- Lines 39-41: the root override applied to the store before the
checkpoint opens. -/
def initialStore (store0 : Store) (opts : Opts) : Store :=
  match opts.root with
  | some r => { store0 with root := r }
  | none => store0

/-- module.exports (lines 16-211): the whole invocation.  Without a
block it calls back immediately with the invalid-input error, touching
nothing; otherwise it applies the root override, opens the checkpoint,
runs the series and parses its outcome. -/
def runBlock (env : Env) (store0 : Store) (opts : Opts) : Outcome :=
  match opts.block with
  | none =>
      { store := store0
        header := none
        receiptTrie := []
        trace := [Event.cbCall (some Err.invalidInput) none]
        cbErr := some Err.invalidInput
        cbResult := none }
  | some blk =>
      let p := runSeries env opts.generate blk (Store.checkpoint (initialStore store0 opts))
      parseBlockResults env opts.generate blk p.1 p.2

/-- The gas reported by an executor outcome (zero for a failed call,
whose gas is never read by the source). -/
def execGasUsed : Except Err TxResult → Nat
  | Except.ok r => r.gasUsed
  | Except.error _ => 0

/-- Total ommer reward credited to one address by the reward loop: the
sum, over the ommers whose coinbase is that address, of their
rewards. -/
def ommerCreditsTo (blockNumber : Nat) : List OmmerHeader → Addr → Nat
  | [], _ => 0
  | om :: rest, a =>
    (if a = om.coinbase then ommerReward blockNumber om.number else 0)
      + ommerCreditsTo blockNumber rest a

/-- The fragments of a combined validation error (empty for any other
error and for no error). -/
def fragsOfErr : Option Err → List Frag
  | some (Err.validation _ fr) => fr
  | _ => []

/-- Whether a trace contains an afterBlock emission. -/
def hasAfterBlock : List Event → Bool
  | [] => false
  | Event.afterBlock _ :: _ => true
  | _ :: t => hasAfterBlock t

/-- Whether every receipt entry of a list is present (non-null). -/
def allSomeReceipts (l : List (Option RawReceipt)) : Bool :=
  l.all (fun x => x.isSome)

/-- The bloom bit-vector field of each inserted receipt, in insertion
order. -/
def trieBitvectors (l : List (Nat × RawReceipt)) : List Nat :=
  l.map (fun p => p.2.bitvector)

/-- Invariant of the transaction loop while no transaction has failed:
one receipt and one result entry per successfully processed
transaction, and every receipt present. -/
def ReceiptsInv (s : TxLoopState) : Prop :=
  s.receipts.length = s.validReceiptCount ∧
  s.txResults.length = s.validReceiptCount ∧
  allSomeReceipts s.receipts = true

/-! ### Concrete fixtures used by witnesses and counterexamples -/

def storeC : Store := { root := 5, balances := fun _ => 10, checkpoints := [] }

def headerC : Header :=
  { number := 3, coinbase := 9, gasLimit := 100000, gasUsed := 21000, bloom := 0,
    stateRoot := 0, receiptTrie := [] }

def blockC : Block :=
  { header := headerC, transactions := [{ gasLimit := 21000 }], uncleHeaders := [] }

def envHookFail : Env :=
  { beforeBlockErr := some (Err.hook 0)
    runTx := fun _ => Except.error (Err.exec 0)
    getAccountErr := fun _ => none
    rootOf := fun _ => 0
    commitErr := none }

def optsNoRoot : Opts := { block := some blockC, generate := false, root := none }

def txresA : TxResult :=
  { gasUsed := 10, bloom := 1, vm := { exception := 1, logs := some [] }
    postBalances := fun _ => 10, postRoot := 5 }

def txresB : TxResult :=
  { gasUsed := 20, bloom := 2, vm := { exception := 1, logs := some [] }
    postBalances := fun _ => 10, postRoot := 5 }

def envOneOk : Env :=
  { beforeBlockErr := none
    runTx := fun _ => Except.ok txresA
    getAccountErr := fun _ => none
    rootOf := fun _ => 5
    commitErr := none }

def envTwoTx : Env :=
  { beforeBlockErr := none
    runTx := fun i => if i = 0 then Except.ok txresA else Except.ok txresB
    getAccountErr := fun _ => none
    rootOf := fun _ => 5
    commitErr := none }

def envFailSecond : Env :=
  { beforeBlockErr := none
    runTx := fun i => if i = 0 then Except.ok txresA else Except.error (Err.exec 5)
    getAccountErr := fun _ => none
    rootOf := fun _ => 5
    commitErr := none }

def envExecFail : Env :=
  { beforeBlockErr := none
    runTx := fun _ => Except.error (Err.exec 0)
    getAccountErr := fun _ => none
    rootOf := fun _ => 5
    commitErr := none }

def headerBig : Header :=
  { number := 1, coinbase := 9, gasLimit := 1000, gasUsed := 0, bloom := 0,
    stateRoot := 0, receiptTrie := [] }

def blockTwoTx : Block :=
  { header := headerBig
    transactions := [{ gasLimit := 10 }, { gasLimit := 20 }]
    uncleHeaders := [] }

def headerSmall : Header :=
  { number := 1, coinbase := 9, gasLimit := 15, gasUsed := 0, bloom := 0,
    stateRoot := 0, receiptTrie := [] }

def blockGasHeavy : Block :=
  { header := headerSmall
    transactions := [{ gasLimit := 10 }, { gasLimit := 10 }]
    uncleHeaders := [] }

def headerOneTx : Header :=
  { number := 1, coinbase := 9, gasLimit := 50, gasUsed := 10, bloom := 1,
    stateRoot := 5, receiptTrie := [(0, mkReceipt txresA 10)] }

def blockOneTx : Block :=
  { header := headerOneTx, transactions := [{ gasLimit := 10 }], uncleHeaders := [] }

def headerMismatch : Header :=
  { number := 1, coinbase := 9, gasLimit := 50, gasUsed := 99, bloom := 7,
    stateRoot := 42, receiptTrie := [] }

def blockMismatch : Block :=
  { header := headerMismatch, transactions := [{ gasLimit := 10 }], uncleHeaders := [] }

def blockOmmers : Block :=
  { header := { number := 10, coinbase := 9, gasLimit := 100, gasUsed := 0, bloom := 0,
                stateRoot := 0, receiptTrie := [] }
    transactions := []
    uncleHeaders := [{ number := 9, coinbase := 2 }, { number := 4, coinbase := 2 }] }

def headerBloom5 : Header :=
  { number := 1, coinbase := 9, gasLimit := 1000, gasUsed := 0, bloom := 5,
    stateRoot := 0, receiptTrie := [] }

def blockBloom5 : Block :=
  { header := headerBloom5, transactions := [{ gasLimit := 10 }], uncleHeaders := [] }

def envOkThenFail : Env :=
  { beforeBlockErr := none
    runTx := fun i => if i = 0 then Except.ok txresA else Except.error (Err.exec 7)
    getAccountErr := fun _ => none
    rootOf := fun _ => 5
    commitErr := none }

def optsValMis : Opts := { block := some blockMismatch, generate := false, root := none }

def optsOneTx : Opts := { block := some blockOneTx, generate := false, root := none }

def resultOneTx : BlockResult :=
  { receipts := [some (mkReceipt txresA 10)]
    results := [TxEntry.ok txresA]
    error := none }

def optsGenBloom : Opts := { block := some blockBloom5, generate := true, root := none }

def optsGenTwoTx : Opts := { block := some blockTwoTx, generate := true, root := none }

/-! ### Helper lemmas -/

theorem Store.revert_eq (s : Store) (r : Nat) (b : Addr → Nat)
    (rest : List (Nat × (Addr → Nat))) (h : s.checkpoints = (r, b) :: rest) :
    s.revert = { root := r, balances := b, checkpoints := rest } := by
  unfold Store.revert
  rw [h]

theorem processTx_store_checkpoints (env : Env) (hdr : Header) (g : Bool) (i : Nat)
    (tx : Tx) (s : TxLoopState) :
    ((processTx env hdr g i tx s).1).store.checkpoints = s.store.checkpoints := by
  unfold processTx
  split
  · rfl
  · cases h : env.runTx i <;> simp

theorem processTransactions_store_checkpoints (env : Env) (hdr : Header) (g : Bool)
    (txs : List Tx) : ∀ i s,
    ((processTransactions env hdr g txs i s).1).store.checkpoints = s.store.checkpoints := by
  induction txs with
  | nil => intro i s; rfl
  | cons tx rest ih =>
    intro i s
    unfold processTransactions
    cases hp : processTx env hdr g i tx s with
    | mk s1 err =>
      have hck : s1.store.checkpoints = s.store.checkpoints := by
        have h0 := processTx_store_checkpoints env hdr g i tx s
        rwa [hp] at h0
      cases err with
      | none => simpa [ih (i + 1) s1] using hck
      | some e => simpa using hck

theorem rewardAccount_checkpoints (env : Env) (st : Store) (a : Addr) (r : Nat) :
    ((rewardAccount env st a r).1).checkpoints = st.checkpoints := by
  unfold rewardAccount
  cases h : env.getAccountErr a <;> simp

theorem rewardOmmers_checkpoints (env : Env) (n : Nat) (oms : List OmmerHeader) :
    ∀ st, ((rewardOmmers env n oms st).1).checkpoints = st.checkpoints := by
  induction oms with
  | nil => intro st; rfl
  | cons om rest ih =>
    intro st
    unfold rewardOmmers
    cases hr : rewardAccount env st om.coinbase (ommerReward n om.number) with
    | mk st1 err =>
      have hck : st1.checkpoints = st.checkpoints := by
        have h0 := rewardAccount_checkpoints env st om.coinbase (ommerReward n om.number)
        rwa [hr] at h0
      cases err with
      | none => simpa [ih st1] using hck
      | some e => simpa using hck

theorem payOmmersAndMiner_checkpoints (env : Env) (blk : Block) (st : Store) :
    ((payOmmersAndMiner env blk st).1).checkpoints = st.checkpoints := by
  unfold payOmmersAndMiner
  cases hr : rewardOmmers env blk.header.number blk.uncleHeaders st with
  | mk st1 err =>
    have hck : st1.checkpoints = st.checkpoints := by
      have h0 := rewardOmmers_checkpoints env blk.header.number blk.uncleHeaders st
      rwa [hr] at h0
    cases err with
    | none =>
      have h1 := rewardAccount_checkpoints env st1 blk.header.coinbase
        (minerRewardParam + (minerRewardParam / 32) * blk.uncleHeaders.length)
      simpa [h1] using hck
    | some e => simpa using hck

theorem runSeries_store_checkpoints (env : Env) (g : Bool) (blk : Block) (s : Store) :
    ((runSeries env g blk s).1).store.checkpoints = s.checkpoints := by
  unfold runSeries
  cases hb : env.beforeBlockErr with
  | some e => rfl
  | none =>
    cases hp : processTransactions env blk.header g blk.transactions 0 (initLoopState blk s) with
    | mk ls err =>
      have hck : ls.store.checkpoints = s.checkpoints := by
        have h0 := processTransactions_store_checkpoints env blk.header g blk.transactions 0
          (initLoopState blk s)
        rwa [hp] at h0
      cases err with
      | none =>
        have h1 := payOmmersAndMiner_checkpoints env blk ls.store
        simpa [h1] using hck
      | some e => simpa using hck

theorem initialStore_root (store0 : Store) (opts : Opts) :
    (initialStore store0 opts).root = opts.root.getD store0.root := by
  unfold initialStore
  cases opts.root <;> rfl

theorem initialStore_balances (store0 : Store) (opts : Opts) :
    (initialStore store0 opts).balances = store0.balances := by
  unfold initialStore
  cases opts.root <;> rfl

theorem initialStore_checkpoints (store0 : Store) (opts : Opts) :
    (initialStore store0 opts).checkpoints = store0.checkpoints := by
  unfold initialStore
  cases opts.root <;> rfl

/-! ### Claims -/

/-- Claim C8: when the options carry no block, processBlock fails with
the invalid-input error before any state mutation: the store is
returned exactly as it was (no root override, no checkpoint opened),
the trace holds no hook event, and the callback receives only the
error, with no result object. -/
theorem claim_C8_no_block (env : Env) (store0 : Store) (opts : Opts)
    (h : opts.block = none) :
    (runBlock env store0 opts).store = store0 ∧
    (runBlock env store0 opts).trace = [Event.cbCall (some Err.invalidInput) none] ∧
    (runBlock env store0 opts).cbErr = some Err.invalidInput ∧
    (runBlock env store0 opts).cbResult = none := by
  simp [runBlock, h]

/-- Witness for claim C8 at a concrete invocation. -/
theorem claim_C8_witness :
    (runBlock envHookFail storeC { block := none, generate := false, root := some 7 }).store = storeC ∧
    (runBlock envHookFail storeC { block := none, generate := false, root := some 7 }).trace
      = [Event.cbCall (some Err.invalidInput) none] ∧
    (runBlock envHookFail storeC { block := none, generate := false, root := some 7 }).cbErr
      = some Err.invalidInput ∧
    (runBlock envHookFail storeC { block := none, generate := false, root := some 7 }).cbResult
      = none :=
  claim_C8_no_block envHookFail storeC { block := none, generate := false, root := some 7 } rfl

/-- Claim C1 counterexample: a failing invocation (the beforeBlock hook
fails) carrying a root override; the checkpoint is reverted, yet the
store root after the call is the override value 7 and not its pre-call
value 5 — so the root does not always equal its value before the
call. -/
theorem claim_C1_counterexample :
    (runBlock envHookFail storeC { block := some blockC, generate := false, root := some 7 }).cbErr
      = some (Err.hook 0) ∧
    (runBlock envHookFail storeC { block := some blockC, generate := false, root := some 7 }).store.root
      = 7 ∧
    ¬ (runBlock envHookFail storeC { block := some blockC, generate := false, root := some 7 }).store.root
      = storeC.root := by
  refine ⟨rfl, rfl, ?_⟩
  intro h
  simp [storeC] at h
  exact absurd h (by decide)

/-- Claim C1 (amended): on every invocation whose pipeline (beforeBlock
hook, transaction processing or reward crediting) fails, the checkpoint
is reverted — the store root returns to its value when the checkpoint
opened (the override root when one was given, the pre-call root
otherwise), the balances return to their pre-call contents and the
checkpoint stack is balanced — the callback receives the originating
error, and no result object is produced. -/
theorem claim_C1_revert (env : Env) (store0 : Store) (opts : Opts) (blk : Block)
    (ls : TxLoopState) (e : Err)
    (hb : opts.block = some blk)
    (hrun : runSeries env opts.generate blk
      (Store.checkpoint (initialStore store0 opts)) = (ls, some e)) :
    (runBlock env store0 opts).cbErr = some e ∧
    (runBlock env store0 opts).cbResult = none ∧
    (runBlock env store0 opts).store.root = opts.root.getD store0.root ∧
    (runBlock env store0 opts).store.balances = store0.balances ∧
    (runBlock env store0 opts).store.checkpoints = store0.checkpoints := by
  have hls : ls.store.checkpoints =
      ((initialStore store0 opts).root, (initialStore store0 opts).balances)
        :: store0.checkpoints := by
    have h0 := runSeries_store_checkpoints env opts.generate blk
      (Store.checkpoint (initialStore store0 opts))
    rw [hrun] at h0
    simpa [Store.checkpoint, initialStore_checkpoints] using h0
  have hout : runBlock env store0 opts = parseBlockResults env opts.generate blk ls (some e) := by
    simp only [runBlock, hb]
    rw [hrun]
  rw [hout]
  unfold parseBlockResults
  rw [Store.revert_eq ls.store _ _ _ hls]
  refine ⟨rfl, rfl, ?_, ?_, rfl⟩
  · exact initialStore_root store0 opts
  · exact initialStore_balances store0 opts

/-- Witness for the amended claim C1 at a concrete failing
invocation. -/
theorem claim_C1_witness :
    (runBlock envHookFail storeC optsNoRoot).cbErr = some (Err.hook 0) ∧
    (runBlock envHookFail storeC optsNoRoot).cbResult = none ∧
    (runBlock envHookFail storeC optsNoRoot).store.root = optsNoRoot.root.getD storeC.root ∧
    (runBlock envHookFail storeC optsNoRoot).store.balances = storeC.balances ∧
    (runBlock envHookFail storeC optsNoRoot).store.checkpoints = storeC.checkpoints :=
  claim_C1_revert envHookFail storeC optsNoRoot blockC _ _ rfl rfl

/-- Case analysis of a failing processTx step: either the admission
check rejected the transaction (state untouched), or the executor
failed (null receipt and result entry pushed). -/
theorem processTx_some_cases (env : Env) (hdr : Header) (g : Bool) (i : Nat) (tx : Tx)
    (s s1 : TxLoopState) (e : Err)
    (hp : processTx env hdr g i tx s = (s1, some e)) :
    (hdr.gasLimit < tx.gasLimit + s.gasUsed ∧ s1 = s ∧ e = Err.gasLimitExceeded) ∨
    (¬ hdr.gasLimit < tx.gasLimit + s.gasUsed ∧ env.runTx i = Except.error e ∧
      s1 = { s with
        txResults := s.txResults ++ [TxEntry.failed e]
        receipts := s.receipts ++ [none] }) := by
  unfold processTx at hp
  split at hp
  · rename_i hlt
    left
    obtain ⟨h1, h2⟩ := Prod.mk.injEq .. ▸ hp
    exact ⟨hlt, h1.symm, (Option.some.injEq .. ▸ h2).symm⟩
  · rename_i hlt
    right
    cases hr : env.runTx i with
    | error e2 =>
      rw [hr] at hp
      simp only at hp
      obtain ⟨h1, h2⟩ := Prod.mk.injEq .. ▸ hp
      have he : e2 = e := Option.some.injEq .. ▸ h2
      subst he
      exact ⟨hlt, rfl, h1.symm⟩
    | ok r =>
      rw [hr] at hp
      simp only at hp
      exact absurd (Prod.mk.injEq .. ▸ hp).2 (by simp)

/-- Shape of a successful processTx step: the admission check passed,
the executor succeeded, and the accumulators advance as at lines
94-121. -/
theorem processTx_none_cases (env : Env) (hdr : Header) (g : Bool) (i : Nat) (tx : Tx)
    (s s1 : TxLoopState)
    (hp : processTx env hdr g i tx s = (s1, none)) :
    ∃ r, ¬ hdr.gasLimit < tx.gasLimit + s.gasUsed ∧ env.runTx i = Except.ok r ∧
      s1 = { s with
        gasUsed := s.gasUsed + r.gasUsed
        bloom := Nat.lor s.bloom r.bloom
        txResults := s.txResults ++ [TxEntry.ok r]
        receipts := s.receipts ++ [some (mkReceipt r (s.gasUsed + r.gasUsed))]
        trie := s.trie ++ [(s.validReceiptCount, mkReceipt r (s.gasUsed + r.gasUsed))]
        validReceiptCount := s.validReceiptCount + 1
        store := { s.store with balances := r.postBalances, root := r.postRoot }
        headerBloom := if g then Nat.lor s.bloom r.bloom else s.headerBloom } := by
  unfold processTx at hp
  split at hp
  · exact absurd (Prod.mk.injEq .. ▸ hp).2 (by simp)
  · rename_i hlt
    cases hr : env.runTx i with
    | error e2 =>
      rw [hr] at hp
      simp only at hp
      exact absurd (Prod.mk.injEq .. ▸ hp).2 (by simp)
    | ok r =>
      rw [hr] at hp
      simp only at hp
      exact ⟨r, hlt, rfl, ((Prod.mk.injEq .. ▸ hp).1).symm⟩

/-- Claim C3: the cumulative gas accumulator starts at zero, is
non-decreasing across a transaction step and grows exactly by the
executor-reported gas on success; a transaction is rejected with the
GasLimitExceeded error exactly when its declared gas limit plus the
cumulative gas so far exceeds the declared block gas limit.  The
provenance hypothesis records that executor errors are abstract external
errors (the executor never returns the admission error itself). -/
theorem claim_C3_gas (env : Env) (hdr : Header) (g : Bool) (i : Nat) (tx : Tx)
    (s : TxLoopState) (blk0 : Block) (st0 : Store)
    (hprov : ∀ e, env.runTx i = Except.error e → ∃ n, e = Err.exec n) :
    (initLoopState blk0 st0).gasUsed = 0 ∧
    s.gasUsed ≤ ((processTx env hdr g i tx s).1).gasUsed ∧
    ((processTx env hdr g i tx s).2 = none →
      ((processTx env hdr g i tx s).1).gasUsed = s.gasUsed + execGasUsed (env.runTx i)) ∧
    ((processTx env hdr g i tx s).2 = some Err.gasLimitExceeded ↔
      hdr.gasLimit < tx.gasLimit + s.gasUsed) := by
  refine ⟨rfl, ?_, ?_, ?_⟩
  · unfold processTx
    split
    · exact le_refl _
    · cases hr : env.runTx i with
      | error e => simp
      | ok r => simp
  · intro hnone
    obtain ⟨r, _, hr, hs1⟩ := processTx_none_cases env hdr g i tx s _
      (Prod.ext rfl hnone)
    have hg := congrArg TxLoopState.gasUsed hs1
    simp only at hg
    rw [hg, hr]
    rfl
  · constructor
    · intro hsome
      rcases processTx_some_cases env hdr g i tx s _ _
        (Prod.ext rfl hsome) with ⟨hlt, _, _⟩ | ⟨_, hr, _⟩
      · exact hlt
      · obtain ⟨n, hn⟩ := hprov _ hr
        exact absurd hn (by simp)
    · intro hlt
      unfold processTx
      rw [if_pos hlt]

/-- Witness for claim C3 at a concrete step. -/
theorem claim_C3_witness :
    (initLoopState blockC storeC).gasUsed = 0 ∧
    (initLoopState blockTwoTx storeC).gasUsed ≤
      ((processTx envOneOk headerBig false 0 { gasLimit := 10 }
        (initLoopState blockTwoTx storeC)).1).gasUsed ∧
    ((processTx envOneOk headerBig false 0 { gasLimit := 10 }
        (initLoopState blockTwoTx storeC)).2 = none →
      ((processTx envOneOk headerBig false 0 { gasLimit := 10 }
        (initLoopState blockTwoTx storeC)).1).gasUsed =
        (initLoopState blockTwoTx storeC).gasUsed + execGasUsed (envOneOk.runTx 0)) ∧
    ((processTx envOneOk headerBig false 0 { gasLimit := 10 }
        (initLoopState blockTwoTx storeC)).2 = some Err.gasLimitExceeded ↔
      headerBig.gasLimit < Tx.gasLimit { gasLimit := 10 } +
        (initLoopState blockTwoTx storeC).gasUsed) :=
  claim_C3_gas envOneOk headerBig false 0 { gasLimit := 10 }
    (initLoopState blockTwoTx storeC) blockC storeC
    (fun _ h => nomatch h)

/-- Claim C2 counterexample: a concrete run with two successful
transactions whose blooms are 1 and 2.  The receipt inserted for the
second transaction carries bit-vector 2 (the per-transaction bloom,
line 107 of the source) while the running aggregate at that point is 3,
so the inserted tuple does not hold the aggregate bloom the claim
asserts (which would give bit-vectors [1, 3]). -/
theorem claim_C2_counterexample :
    trieBitvectors ((processTransactions envTwoTx headerBig false blockTwoTx.transactions 0
      (initLoopState blockTwoTx storeC)).1).trie = [1, 2] ∧
    ((processTransactions envTwoTx headerBig false blockTwoTx.transactions 0
      (initLoopState blockTwoTx storeC)).1).bloom = 3 ∧
    ¬ trieBitvectors ((processTransactions envTwoTx headerBig false blockTwoTx.transactions 0
      (initLoopState blockTwoTx storeC)).1).trie = [1, 3] := by
  refine ⟨rfl, rfl, ?_⟩
  intro h
  rw [show trieBitvectors ((processTransactions envTwoTx headerBig false blockTwoTx.transactions 0
    (initLoopState blockTwoTx storeC)).1).trie = [1, 2] from rfl] at h
  exact absurd h (by decide)

/-- Claim C2 (amended): for every successfully executed transaction,
the receipt built and RLP-inserted into the receipt trie is the tuple
of the inverted semantic exception flag (status 0 exactly when an
exception occurred, 1 on success), the cumulative gas used so far as a
big-endian byte sequence, the per-transaction bloom bit-vector (not
the running aggregate), and the logs of the transaction, keyed by the
zero-based counter of successfully processed transactions, which then
increments. -/
theorem claim_C2_receipt (env : Env) (hdr : Header) (g : Bool) (i : Nat) (tx : Tx)
    (s : TxLoopState) (r : TxResult)
    (hadm : ¬ hdr.gasLimit < tx.gasLimit + s.gasUsed)
    (hr : env.runTx i = Except.ok r) :
    ((processTx env hdr g i tx s).1).trie
      = s.trie ++ [(s.validReceiptCount, mkReceipt r (s.gasUsed + r.gasUsed))] ∧
    ((processTx env hdr g i tx s).1).receipts
      = s.receipts ++ [some (mkReceipt r (s.gasUsed + r.gasUsed))] ∧
    ((processTx env hdr g i tx s).1).validReceiptCount = s.validReceiptCount + 1 ∧
    (mkReceipt r (s.gasUsed + r.gasUsed)).gasUsedBytes = beBytes (s.gasUsed + r.gasUsed) ∧
    (mkReceipt r (s.gasUsed + r.gasUsed)).bitvector = r.bloom ∧
    ((mkReceipt r (s.gasUsed + r.gasUsed)).status = 0 ↔ r.vm.exception = 0) ∧
    (mkReceipt r (s.gasUsed + r.gasUsed)).logs = r.vm.logs.getD [] := by
  have hred : processTx env hdr g i tx s =
      ({ s with
        gasUsed := s.gasUsed + r.gasUsed
        bloom := Nat.lor s.bloom r.bloom
        txResults := s.txResults ++ [TxEntry.ok r]
        receipts := s.receipts ++ [some (mkReceipt r (s.gasUsed + r.gasUsed))]
        trie := s.trie ++ [(s.validReceiptCount, mkReceipt r (s.gasUsed + r.gasUsed))]
        validReceiptCount := s.validReceiptCount + 1
        store := { s.store with balances := r.postBalances, root := r.postRoot }
        headerBloom := if g then Nat.lor s.bloom r.bloom else s.headerBloom }, none) := by
    unfold processTx
    rw [if_neg hadm, hr]
  rw [hred]
  refine ⟨rfl, rfl, rfl, rfl, rfl, ?_, rfl⟩
  by_cases hx : r.vm.exception = 0 <;> simp [mkReceipt, hx]

/-- Witness for the amended claim C2 at a concrete step. -/
theorem claim_C2_witness :
    ((processTx envOneOk headerBig false 0 { gasLimit := 10 }
      (initLoopState blockTwoTx storeC)).1).trie
      = (initLoopState blockTwoTx storeC).trie
        ++ [((initLoopState blockTwoTx storeC).validReceiptCount,
             mkReceipt txresA ((initLoopState blockTwoTx storeC).gasUsed + txresA.gasUsed))] ∧
    ((processTx envOneOk headerBig false 0 { gasLimit := 10 }
      (initLoopState blockTwoTx storeC)).1).receipts
      = (initLoopState blockTwoTx storeC).receipts
        ++ [some (mkReceipt txresA ((initLoopState blockTwoTx storeC).gasUsed + txresA.gasUsed))] ∧
    ((processTx envOneOk headerBig false 0 { gasLimit := 10 }
      (initLoopState blockTwoTx storeC)).1).validReceiptCount
      = (initLoopState blockTwoTx storeC).validReceiptCount + 1 ∧
    (mkReceipt txresA ((initLoopState blockTwoTx storeC).gasUsed + txresA.gasUsed)).gasUsedBytes
      = beBytes ((initLoopState blockTwoTx storeC).gasUsed + txresA.gasUsed) ∧
    (mkReceipt txresA ((initLoopState blockTwoTx storeC).gasUsed + txresA.gasUsed)).bitvector
      = txresA.bloom ∧
    ((mkReceipt txresA ((initLoopState blockTwoTx storeC).gasUsed + txresA.gasUsed)).status = 0 ↔
      txresA.vm.exception = 0) ∧
    (mkReceipt txresA ((initLoopState blockTwoTx storeC).gasUsed + txresA.gasUsed)).logs
      = txresA.vm.logs.getD [] :=
  claim_C2_receipt envOneOk headerBig false 0 { gasLimit := 10 }
    (initLoopState blockTwoTx storeC) txresA (by decide) rfl

/-- A successful step preserves the loop invariant. -/
theorem processTx_none_inv (env : Env) (hdr : Header) (g : Bool) (i : Nat) (tx : Tx)
    (s s1 : TxLoopState) (hp : processTx env hdr g i tx s = (s1, none))
    (hinv : ReceiptsInv s) : ReceiptsInv s1 := by
  obtain ⟨r, _, _, hs1⟩ := processTx_none_cases env hdr g i tx s s1 hp
  obtain ⟨h1, h2, h3⟩ := hinv
  subst hs1
  refine ⟨?_, ?_, ?_⟩
  · simp [h1]
  · simp [h2]
  · simp only [allSomeReceipts, List.all_append] at h3 ⊢
    simp [h3]

/-- Behaviour of the transaction loop when it halts with an abstract
executor error: everything pushed before the failure is kept, a null
receipt and the failing result entry are appended last, and no later
transaction contributes an entry. -/
theorem processTransactions_exec_fail (env : Env) (hdr : Header) (g : Bool) (n : Nat) :
    ∀ (txs : List Tx) (i : Nat) (s ls : TxLoopState),
    ReceiptsInv s →
    processTransactions env hdr g txs i s = (ls, some (Err.exec n)) →
    ls.receipts.length = ls.validReceiptCount + 1 ∧
    ls.txResults.length = ls.validReceiptCount + 1 ∧
    ls.receipts.getLast? = some none ∧
    allSomeReceipts ls.receipts.dropLast = true ∧
    ls.txResults.getLast? = some (TxEntry.failed (Err.exec n)) ∧
    ls.receipts.length ≤ s.receipts.length + txs.length := by
  intro txs
  induction txs with
  | nil =>
    intro i s ls _ hp
    exact absurd (Prod.mk.injEq .. ▸ hp).2 (by simp)
  | cons tx rest ih =>
    intro i s ls hinv hp
    unfold processTransactions at hp
    cases hpt : processTx env hdr g i tx s with
    | mk s1 err =>
      rw [hpt] at hp
      cases err with
      | some e =>
        simp only at hp
        obtain ⟨hls, he⟩ := Prod.mk.injEq .. ▸ hp
        have he2 : e = Err.exec n := Option.some.injEq .. ▸ he
        subst he2
        subst hls
        rcases processTx_some_cases env hdr g i tx s s1 _ hpt with
          ⟨_, _, hgle⟩ | ⟨_, _, hs1⟩
        · exact absurd hgle (by simp)
        · obtain ⟨h1, h2, h3⟩ := hinv
          subst hs1
          refine ⟨by simp [h1], by simp [h2], ?_, ?_, ?_, by simp⟩
          · simp
          · simpa [allSomeReceipts] using h3
          · simp
      | none =>
        simp only at hp
        have hnext := ih (i + 1) s1 ls
          (processTx_none_inv env hdr g i tx s s1 hpt hinv) hp
        obtain ⟨r, _, _, hs1⟩ := processTx_none_cases env hdr g i tx s s1 hpt
        have hlen : s1.receipts.length = s.receipts.length + 1 := by
          subst hs1; simp
        refine ⟨hnext.1, hnext.2.1, hnext.2.2.1, hnext.2.2.2.1, hnext.2.2.2.2.1, ?_⟩
        have := hnext.2.2.2.2.2
        rw [hlen] at this
        simpa [Nat.add_comm, Nat.add_assoc, Nat.add_left_comm] using this.trans (by omega)

/-- Claim C6: when the executor fails on a transaction after k
successes (from the start of a block), the receipts sequence has k + 1
entries ending in a null entry with all earlier entries present, the
results sequence has k + 1 entries ending in the raw executor error
recorded as the transaction result, and no further transaction
contributes an entry. -/
theorem claim_C6_executor_failure (env : Env) (hdr : Header) (g : Bool) (n : Nat)
    (txs : List Tx) (blk : Block) (st : Store) (ls : TxLoopState)
    (hp : processTransactions env hdr g txs 0 (initLoopState blk st) = (ls, some (Err.exec n))) :
    ls.receipts.length = ls.validReceiptCount + 1 ∧
    ls.txResults.length = ls.validReceiptCount + 1 ∧
    ls.receipts.getLast? = some none ∧
    allSomeReceipts ls.receipts.dropLast = true ∧
    ls.txResults.getLast? = some (TxEntry.failed (Err.exec n)) ∧
    ls.receipts.length ≤ txs.length := by
  have h := processTransactions_exec_fail env hdr g n txs 0 (initLoopState blk st) ls
    ⟨rfl, rfl, rfl⟩ hp
  simpa [initLoopState] using h

/-- Witness for claim C6: a two-transaction block whose second
transaction fails in the executor. -/
theorem claim_C6_witness :
    ((processTransactions envFailSecond headerBig false blockTwoTx.transactions 0
      (initLoopState blockTwoTx storeC)).1).receipts.length
      = ((processTransactions envFailSecond headerBig false blockTwoTx.transactions 0
          (initLoopState blockTwoTx storeC)).1).validReceiptCount + 1 ∧
    ((processTransactions envFailSecond headerBig false blockTwoTx.transactions 0
      (initLoopState blockTwoTx storeC)).1).txResults.length
      = ((processTransactions envFailSecond headerBig false blockTwoTx.transactions 0
          (initLoopState blockTwoTx storeC)).1).validReceiptCount + 1 ∧
    ((processTransactions envFailSecond headerBig false blockTwoTx.transactions 0
      (initLoopState blockTwoTx storeC)).1).receipts.getLast? = some none ∧
    allSomeReceipts ((processTransactions envFailSecond headerBig false blockTwoTx.transactions 0
      (initLoopState blockTwoTx storeC)).1).receipts.dropLast = true ∧
    ((processTransactions envFailSecond headerBig false blockTwoTx.transactions 0
      (initLoopState blockTwoTx storeC)).1).txResults.getLast?
      = some (TxEntry.failed (Err.exec 5)) ∧
    ((processTransactions envFailSecond headerBig false blockTwoTx.transactions 0
      (initLoopState blockTwoTx storeC)).1).receipts.length
      ≤ blockTwoTx.transactions.length :=
  claim_C6_executor_failure envFailSecond headerBig false 5 blockTwoTx.transactions
    blockTwoTx storeC _ (Prod.ext rfl rfl)

/-- The transaction loop halting with the admission (gas-limit) error
pushes nothing for the rejected transaction: the loop invariant still
holds at the final state. -/
theorem processTransactions_gas_reject (env : Env) (hdr : Header) (g : Bool)
    (hprov : ∀ j e, env.runTx j = Except.error e → ∃ m, e = Err.exec m) :
    ∀ (txs : List Tx) (i : Nat) (s ls : TxLoopState),
    ReceiptsInv s →
    processTransactions env hdr g txs i s = (ls, some Err.gasLimitExceeded) →
    ReceiptsInv ls := by
  intro txs
  induction txs with
  | nil =>
    intro i s ls _ hp
    exact absurd (Prod.mk.injEq .. ▸ hp).2 (by simp)
  | cons tx rest ih =>
    intro i s ls hinv hp
    unfold processTransactions at hp
    cases hpt : processTx env hdr g i tx s with
    | mk s1 err =>
      rw [hpt] at hp
      cases err with
      | some e =>
        simp only at hp
        obtain ⟨hls, he⟩ := Prod.mk.injEq .. ▸ hp
        have he2 : e = Err.gasLimitExceeded := Option.some.injEq .. ▸ he
        subst he2
        subst hls
        rcases processTx_some_cases env hdr g i tx s s1 _ hpt with
          ⟨_, hs1, _⟩ | ⟨_, hr, _⟩
        · subst hs1; exact hinv
        · obtain ⟨m, hm⟩ := hprov i _ hr
          exact absurd hm (by simp)
      | none =>
        simp only at hp
        exact ih (i + 1) s1 ls (processTx_none_inv env hdr g i tx s s1 hpt hinv) hp

/-- Claim C9: a transaction rejected by the gas-limit admission check
contributes no entry of any kind: after a GasLimitExceeded abort (from
the start of a block), both the receipts and the results sequences have
exactly one entry per previously successful transaction, all receipts
present. -/
theorem claim_C9_gas_reject (env : Env) (hdr : Header) (g : Bool)
    (txs : List Tx) (blk : Block) (st : Store) (ls : TxLoopState)
    (hprov : ∀ j e, env.runTx j = Except.error e → ∃ m, e = Err.exec m)
    (hp : processTransactions env hdr g txs 0 (initLoopState blk st)
      = (ls, some Err.gasLimitExceeded)) :
    ls.receipts.length = ls.validReceiptCount ∧
    ls.txResults.length = ls.validReceiptCount ∧
    allSomeReceipts ls.receipts = true :=
  processTransactions_gas_reject env hdr g hprov txs 0 (initLoopState blk st) ls
    ⟨rfl, rfl, rfl⟩ hp

/-- Witness for claim C9: a two-transaction block whose second
transaction exceeds the remaining block gas budget. -/
theorem claim_C9_witness :
    ((processTransactions envOneOk headerSmall false blockGasHeavy.transactions 0
      (initLoopState blockGasHeavy storeC)).1).receipts.length
      = ((processTransactions envOneOk headerSmall false blockGasHeavy.transactions 0
          (initLoopState blockGasHeavy storeC)).1).validReceiptCount ∧
    ((processTransactions envOneOk headerSmall false blockGasHeavy.transactions 0
      (initLoopState blockGasHeavy storeC)).1).txResults.length
      = ((processTransactions envOneOk headerSmall false blockGasHeavy.transactions 0
          (initLoopState blockGasHeavy storeC)).1).validReceiptCount ∧
    allSomeReceipts ((processTransactions envOneOk headerSmall false blockGasHeavy.transactions 0
      (initLoopState blockGasHeavy storeC)).1).receipts = true :=
  claim_C9_gas_reject envOneOk headerSmall false blockGasHeavy.transactions
    blockGasHeavy storeC _ (fun _ _ h => nomatch h) (Prod.ext rfl rfl)

/-- rewardAccount when the account lookup succeeds. -/
theorem rewardAccount_ok (env : Env) (st : Store) (a : Addr) (r : Nat)
    (h : env.getAccountErr a = none) :
    rewardAccount env st a r =
      ({ st with
          balances := fun x => if x = a then st.balances x + r else st.balances x
          root := env.rootOf (fun x => if x = a then st.balances x + r else st.balances x) },
        none) := by
  unfold rewardAccount
  rw [h]

/-- With a fault-free account store, the ommer loop credits every ommer
its reward: the final balance of an address grows by the sum of the
rewards of the ommers whose coinbase it is. -/
theorem rewardOmmers_ok (env : Env) (N : Nat) (hacc : ∀ x, env.getAccountErr x = none) :
    ∀ (oms : List OmmerHeader) (st : Store) (a : Addr),
    ((rewardOmmers env N oms st).1).balances a = st.balances a + ommerCreditsTo N oms a ∧
    (rewardOmmers env N oms st).2 = none := by
  intro oms
  induction oms with
  | nil => intro st a; exact ⟨by simp [rewardOmmers, ommerCreditsTo], rfl⟩
  | cons om rest ih =>
    intro st a
    unfold rewardOmmers
    rw [rewardAccount_ok env st om.coinbase _ (hacc om.coinbase)]
    simp only
    obtain ⟨ihb, ihe⟩ := ih
      { st with
          balances := fun x => if x = om.coinbase then st.balances x + ommerReward N om.number
            else st.balances x
          root := env.rootOf (fun x => if x = om.coinbase then st.balances x
            + ommerReward N om.number else st.balances x) } a
    refine ⟨?_, ihe⟩
    rw [ihb]
    simp only [ommerCreditsTo]
    by_cases hx : a = om.coinbase
    · simp [hx, Nat.add_assoc]
    · simp [hx]

/-- Claim C4: with a fault-free account store, the reward phase credits
each ommer at height difference d the amount max(0, (8 - d) *
minerReward / 8) to its coinbase balance, and the miner coinbase the
amount minerReward + (minerReward / 32) * ommerCount; with minerReward
= 5\_000\_000\_000\_000\_000\_000, height difference 1 gives 7/8 of the
miner reward and height difference 8 or more gives 0 (never
negative). -/
theorem claim_C4_rewards (env : Env) (blk : Block) (st : Store) (a : Addr)
    (N M n d : Nat)
    (hacc : ∀ x, env.getAccountErr x = none) (hd : 8 ≤ d) :
    ((payOmmersAndMiner env blk st).1).balances a
      = st.balances a + ommerCreditsTo blk.header.number blk.uncleHeaders a
        + (if a = blk.header.coinbase
            then minerRewardParam + (minerRewardParam / 32) * blk.uncleHeaders.length
            else 0) ∧
    (payOmmersAndMiner env blk st).2 = none ∧
    ommerReward N M
      = Int.toNat (max 0 ((8 - ((N : Int) - (M : Int))) * (minerRewardParam : Int) / 8)) ∧
    ommerReward (n + 1) n = 7 * minerRewardParam / 8 ∧
    ommerReward (n + d) n = 0 := by
  have homm := rewardOmmers_ok env blk.header.number hacc blk.uncleHeaders st
  refine ⟨?_, ?_, ?_, ?_, ?_⟩
  · unfold payOmmersAndMiner
    cases hro : rewardOmmers env blk.header.number blk.uncleHeaders st with
    | mk st1 err =>
      rw [hro] at homm
      have herr : err = none := by simpa using (homm 0).2
      subst herr
      have hbal : st1.balances a
          = st.balances a + ommerCreditsTo blk.header.number blk.uncleHeaders a := by
        simpa using (homm a).1
      simp only
      rw [rewardAccount_ok env st1 blk.header.coinbase _ (hacc blk.header.coinbase)]
      simp only
      by_cases hx : a = blk.header.coinbase
      · subst hx
        simp [hbal, Nat.add_assoc]
      · simp [hx, hbal]
  · unfold payOmmersAndMiner
    cases hro : rewardOmmers env blk.header.number blk.uncleHeaders st with
    | mk st1 err =>
      rw [hro] at homm
      have herr : err = none := by simpa using (homm 0).2
      subst herr
      simp only
      rw [rewardAccount_ok env st1 blk.header.coinbase _ (hacc blk.header.coinbase)]
  · unfold ommerReward
    have hP : (minerRewardParam : Int) = 8 * ((minerRewardParam / 8 : Nat) : Int) := by
      norm_num [minerRewardParam]
    rw [hP]
    have hdiv : (8 - ((N : Int) - (M : Int))) * (8 * ((minerRewardParam / 8 : Nat) : Int)) / 8
        = (8 - ((N : Int) - (M : Int))) * ((minerRewardParam / 8 : Nat) : Int) := by
      rw [show (8 - ((N : Int) - (M : Int))) * (8 * ((minerRewardParam / 8 : Nat) : Int))
          = 8 * ((8 - ((N : Int) - (M : Int))) * ((minerRewardParam / 8 : Nat) : Int)) by ring]
      exact Int.mul_ediv_cancel_left _ (by norm_num)
    rw [hdiv]
    rcases lt_or_le ((8 - ((N : Int) - (M : Int))) * ((minerRewardParam / 8 : Nat) : Int)) 0
      with h | h
    · rw [if_pos h, max_eq_left h.le]
      rfl
    · rw [if_neg (not_lt.mpr h), max_eq_right h]
  · unfold ommerReward
    have h1 : ((n + 1 : Nat) : Int) - (n : Int) = 1 := by push_cast; ring
    rw [h1]
    norm_num [minerRewardParam]
    decide
  · unfold ommerReward
    have h1 : ((n + d : Nat) : Int) - (n : Int) = (d : Int) := by push_cast; ring
    rw [h1]
    have h2 : (8 - (d : Int)) ≤ 0 := by omega
    have h3 : (8 - (d : Int)) * ((minerRewardParam / 8 : Nat) : Int) ≤ 0 :=
      mul_nonpos_iff.mpr (Or.inr ⟨h2, Int.natCast_nonneg _⟩)
    dsimp only
    split_ifs with h4
    · rfl
    · have h5 : (8 - (d : Int)) * ((minerRewardParam / 8 : Nat) : Int) = 0 :=
        le_antisymm h3 (not_lt.mp h4)
      rw [h5]
      rfl

/-- Witness for claim C4: a block with two ommers sharing a coinbase,
at height differences 1 and 6. -/
theorem claim_C4_witness :
    ((payOmmersAndMiner envOneOk blockOmmers storeC).1).balances 2
      = storeC.balances 2 + ommerCreditsTo blockOmmers.header.number blockOmmers.uncleHeaders 2
        + (if 2 = blockOmmers.header.coinbase
            then minerRewardParam + (minerRewardParam / 32) * blockOmmers.uncleHeaders.length
            else 0) ∧
    (payOmmersAndMiner envOneOk blockOmmers storeC).2 = none ∧
    ommerReward 10 9
      = Int.toNat (max 0 ((8 - ((10 : Int) - (9 : Int))) * (minerRewardParam : Int) / 8)) ∧
    ommerReward (3 + 1) 3 = 7 * minerRewardParam / 8 ∧
    ommerReward (3 + 9) 3 = 0 :=
  claim_C4_rewards envOneOk blockOmmers storeC 2 10 9 3 9 (fun _ => rfl) (by decide)

theorem Store.commitCk_root (s : Store) : (s.commitCk).root = s.root := by
  unfold Store.commitCk
  split <;> rfl

/-- In validation mode the header bloom field is never overwritten by a
transaction step. -/
theorem processTx_headerBloom_false (env : Env) (hdr : Header) (i : Nat) (tx : Tx)
    (s : TxLoopState) :
    ((processTx env hdr false i tx s).1).headerBloom = s.headerBloom := by
  unfold processTx
  split
  · rfl
  · cases hr : env.runTx i <;> simp

theorem processTransactions_headerBloom_false (env : Env) (hdr : Header) (txs : List Tx) :
    ∀ i s, ((processTransactions env hdr false txs i s).1).headerBloom = s.headerBloom := by
  induction txs with
  | nil => intro i s; rfl
  | cons tx rest ih =>
    intro i s
    unfold processTransactions
    cases hpt : processTx env hdr false i tx s with
    | mk s1 err =>
      have h0 : s1.headerBloom = s.headerBloom := by
        have h1 := processTx_headerBloom_false env hdr i tx s
        rwa [hpt] at h1
      cases err with
      | none => simpa [ih (i + 1) s1] using h0
      | some e => simpa using h0

theorem runSeries_headerBloom_false (env : Env) (blk : Block) (s : Store) :
    ((runSeries env false blk s).1).headerBloom = blk.header.bloom := by
  unfold runSeries
  cases hb : env.beforeBlockErr with
  | some e => rfl
  | none =>
    cases hp : processTransactions env blk.header false blk.transactions 0
        (initLoopState blk s) with
    | mk ls err =>
      have h0 : ls.headerBloom = blk.header.bloom := by
        have h1 := processTransactions_headerBloom_false env blk.header blk.transactions 0
          (initLoopState blk s)
        rwa [hp] at h1
      cases err with
      | none =>
        cases hpay : payOmmersAndMiner env blk ls.store with
        | mk st2 err2 => simpa using h0
      | some e => simpa using h0

theorem mem_validationFrags_receiptTrie (t : List (Nat × RawReceipt)) (b g r : Nat)
    (hdr : Header) :
    Frag.receiptTrie ∈ validationFrags t b g r hdr ↔ (t ≠ [] ∧ t ≠ hdr.receiptTrie) := by
  unfold validationFrags
  split_ifs <;> simp_all <;> tauto

theorem mem_validationFrags_bloom (t : List (Nat × RawReceipt)) (b g r : Nat)
    (hdr : Header) :
    Frag.bloom ∈ validationFrags t b g r hdr ↔ b ≠ hdr.bloom := by
  unfold validationFrags
  split_ifs <;> simp_all

theorem mem_validationFrags_gasUsed (t : List (Nat × RawReceipt)) (b g r : Nat)
    (hdr : Header) :
    Frag.gasUsed ∈ validationFrags t b g r hdr ↔ g ≠ hdr.gasUsed := by
  unfold validationFrags
  split_ifs <;> simp_all

theorem mem_validationFrags_stateRoot (t : List (Nat × RawReceipt)) (b g r : Nat)
    (hdr : Header) :
    Frag.stateRoot ∈ validationFrags t b g r hdr ↔ r ≠ hdr.stateRoot := by
  unfold validationFrags
  split_ifs <;> simp_all

theorem validationFrags_eq_nil (t : List (Nat × RawReceipt)) (b g r : Nat) (hdr : Header) :
    validationFrags t b g r hdr = [] ↔
      (¬(t ≠ [] ∧ t ≠ hdr.receiptTrie) ∧ b = hdr.bloom ∧ g = hdr.gasUsed ∧ r = hdr.stateRoot) := by
  unfold validationFrags
  split_ifs <;> simp_all <;> tauto

theorem fragsOfErr_commit (o : Option Err)
    (hc : ∀ e, o = some e → ∃ m, e = Err.commitFail m) :
    fragsOfErr o = [] := by
  cases o with
  | none => rfl
  | some e =>
    obtain ⟨m, hm⟩ := hc e rfl
    subst hm
    rfl

/-- Claim C5: in validation mode, after commit and cache flush, the
four commitment checks are all evaluated without short-circuiting: a
fragment for each failing check (receipt-trie root when any receipts
were inserted, aggregate bloom, cumulative gas versus the declared
gas-used, state-store root versus the declared state root) appears in
the single combined error, and when no check fails no new error is
produced — the error from the commit stage, if any, is preserved and
not overwritten. -/
theorem claim_C5_validation (env : Env) (store0 : Store) (opts : Opts) (blk : Block)
    (ls : TxLoopState)
    (hb : opts.block = some blk)
    (hgen : opts.generate = false)
    (hrun : runSeries env opts.generate blk
      (Store.checkpoint (initialStore store0 opts)) = (ls, none))
    (hcommit : ∀ e, env.commitErr = some e → ∃ m, e = Err.commitFail m) :
    (Frag.receiptTrie ∈ fragsOfErr (runBlock env store0 opts).cbErr ↔
      (ls.trie ≠ [] ∧ ls.trie ≠ blk.header.receiptTrie)) ∧
    (Frag.bloom ∈ fragsOfErr (runBlock env store0 opts).cbErr ↔
      ls.bloom ≠ blk.header.bloom) ∧
    (Frag.gasUsed ∈ fragsOfErr (runBlock env store0 opts).cbErr ↔
      ls.gasUsed ≠ blk.header.gasUsed) ∧
    (Frag.stateRoot ∈ fragsOfErr (runBlock env store0 opts).cbErr ↔
      ls.store.root ≠ blk.header.stateRoot) ∧
    (fragsOfErr (runBlock env store0 opts).cbErr = [] →
      (runBlock env store0 opts).cbErr = env.commitErr) ∧
    (fragsOfErr (runBlock env store0 opts).cbErr ≠ [] →
      (runBlock env store0 opts).cbErr
        = some (Err.validation env.commitErr (fragsOfErr (runBlock env store0 opts).cbErr))) := by
  rw [hgen] at hrun
  have hhb : ls.headerBloom = blk.header.bloom := by
    have h1 := runSeries_headerBloom_false env blk (Store.checkpoint (initialStore store0 opts))
    rwa [hrun] at h1
  have hout : runBlock env store0 opts = parseBlockResults env false blk ls none := by
    simp only [runBlock, hb, hgen]
    rw [hrun]
  have hcb : (runBlock env store0 opts).cbErr
      = applyChecks env.commitErr
          (validationFrags ls.trie ls.bloom ls.gasUsed ls.store.root blk.header) := by
    rw [hout]
    unfold parseBlockResults
    dsimp only
    rw [Store.commitCk_root, hhb]
    simp
  rw [hcb]
  by_cases hvf : validationFrags ls.trie ls.bloom ls.gasUsed ls.store.root blk.header = []
  · rw [applyChecks, if_pos hvf]
    have hfe : fragsOfErr env.commitErr = [] := fragsOfErr_commit env.commitErr hcommit
    rw [hfe]
    obtain ⟨hc1, hc2, hc3, hc4⟩ := (validationFrags_eq_nil _ _ _ _ _).mp hvf
    refine ⟨?_, ?_, ?_, ?_, fun _ => rfl, fun hne => absurd rfl hne⟩
    · simp [hc1]
    · simp [hc2]
    · simp [hc3]
    · simp [hc4]
  · rw [applyChecks, if_neg hvf]
    refine ⟨?_, ?_, ?_, ?_, ?_, ?_⟩
    · exact (by rfl : fragsOfErr (some (Err.validation env.commitErr _)) = _)
        ▸ mem_validationFrags_receiptTrie ls.trie ls.bloom ls.gasUsed ls.store.root blk.header
    · exact mem_validationFrags_bloom ls.trie ls.bloom ls.gasUsed ls.store.root blk.header
    · exact mem_validationFrags_gasUsed ls.trie ls.bloom ls.gasUsed ls.store.root blk.header
    · exact mem_validationFrags_stateRoot ls.trie ls.bloom ls.gasUsed ls.store.root blk.header
    · intro h0
      exact absurd h0 hvf
    · intro _
      rfl

/-- Witness for claim C5: a valid one-transaction run validated against
a header whose four declared commitments are all wrong. -/
theorem claim_C5_witness :
    (Frag.receiptTrie ∈ fragsOfErr (runBlock envOneOk storeC optsValMis).cbErr ↔
      (((runSeries envOneOk optsValMis.generate blockMismatch
          (Store.checkpoint (initialStore storeC optsValMis))).1).trie ≠ [] ∧
        ((runSeries envOneOk optsValMis.generate blockMismatch
          (Store.checkpoint (initialStore storeC optsValMis))).1).trie
          ≠ blockMismatch.header.receiptTrie)) ∧
    (Frag.bloom ∈ fragsOfErr (runBlock envOneOk storeC optsValMis).cbErr ↔
      ((runSeries envOneOk optsValMis.generate blockMismatch
        (Store.checkpoint (initialStore storeC optsValMis))).1).bloom
        ≠ blockMismatch.header.bloom) ∧
    (Frag.gasUsed ∈ fragsOfErr (runBlock envOneOk storeC optsValMis).cbErr ↔
      ((runSeries envOneOk optsValMis.generate blockMismatch
        (Store.checkpoint (initialStore storeC optsValMis))).1).gasUsed
        ≠ blockMismatch.header.gasUsed) ∧
    (Frag.stateRoot ∈ fragsOfErr (runBlock envOneOk storeC optsValMis).cbErr ↔
      ((runSeries envOneOk optsValMis.generate blockMismatch
        (Store.checkpoint (initialStore storeC optsValMis))).1).store.root
        ≠ blockMismatch.header.stateRoot) ∧
    (fragsOfErr (runBlock envOneOk storeC optsValMis).cbErr = [] →
      (runBlock envOneOk storeC optsValMis).cbErr = envOneOk.commitErr) ∧
    (fragsOfErr (runBlock envOneOk storeC optsValMis).cbErr ≠ [] →
      (runBlock envOneOk storeC optsValMis).cbErr
        = some (Err.validation envOneOk.commitErr
            (fragsOfErr (runBlock envOneOk storeC optsValMis).cbErr))) :=
  claim_C5_validation envOneOk storeC optsValMis blockMismatch _ rfl rfl
    (Prod.ext rfl rfl) (fun _ h => nomatch h)

/-- Claim C7 counterexample: an invocation whose beforeBlock hook fails
never fires afterBlock — its trace holds no afterBlock event at all —
so afterBlock is not fired on every invocation. -/
theorem claim_C7_counterexample :
    hasAfterBlock (runBlock envHookFail storeC optsNoRoot).trace = false ∧
    (runBlock envHookFail storeC optsNoRoot).cbErr = some (Err.hook 0) :=
  ⟨rfl, rfl⟩

/-- Claim C7 (amended): on every invocation whose pipeline stages
(beforeBlock hook, transactions, rewards) complete without a
block-fatal error, the afterBlock hook is fired with the completed
result object (including any validation error) and awaited before the
final callback resolves; on block-fatal failures (and on a missing
block) afterBlock is not fired. -/
theorem claim_C7_afterBlock (env : Env) (store0 : Store) (opts : Opts) (blk : Block)
    (r : BlockResult)
    (hb : opts.block = some blk)
    (hrun : (runSeries env opts.generate blk
      (Store.checkpoint (initialStore store0 opts))).2 = none)
    (hr : (runBlock env store0 opts).cbResult = some r) :
    (runBlock env store0 opts).trace
      = [Event.beforeBlock, Event.afterBlock r, Event.cbCall r.error (some r)] ∧
    r.error = (runBlock env store0 opts).cbErr := by
  have hout : runBlock env store0 opts
      = parseBlockResults env opts.generate blk
          ((runSeries env opts.generate blk
            (Store.checkpoint (initialStore store0 opts))).1) none := by
    simp only [runBlock, hb]
    rw [hrun]
  rw [hout] at hr ⊢
  unfold parseBlockResults at hr ⊢
  dsimp only at hr ⊢
  have hrr := Option.some.injEq .. ▸ hr
  subst hrr
  exact ⟨rfl, rfl⟩

/-- Witness for the amended claim C7: a valid one-transaction block in
validation mode; afterBlock fires with the completed result before the
callback. -/
theorem claim_C7_witness :
    (runBlock envOneOk storeC optsOneTx).trace
      = [Event.beforeBlock, Event.afterBlock resultOneTx,
         Event.cbCall resultOneTx.error (some resultOneTx)] ∧
    resultOneTx.error = (runBlock envOneOk storeC optsOneTx).cbErr :=
  claim_C7_afterBlock envOneOk storeC optsOneTx blockOneTx resultOneTx rfl rfl rfl

/-- Invariant of the transaction loop in generate mode: once a
transaction has succeeded, the header bloom field equals the running
aggregate bloom. -/
theorem processTransactions_generate_bloom (env : Env) (hdr : Header) (txs : List Tx) :
    ∀ i s,
    (s.validReceiptCount = 0 ∨ s.headerBloom = s.bloom) →
    (((processTransactions env hdr true txs i s).1).validReceiptCount = 0 ∨
      ((processTransactions env hdr true txs i s).1).headerBloom
        = ((processTransactions env hdr true txs i s).1).bloom) := by
  induction txs with
  | nil => intro i s h; exact h
  | cons tx rest ih =>
    intro i s h
    unfold processTransactions
    cases hpt : processTx env hdr true i tx s with
    | mk s1 err =>
      cases err with
      | some e =>
        simp only
        rcases processTx_some_cases env hdr true i tx s s1 _ hpt with
          ⟨_, hs1, _⟩ | ⟨_, _, hs1⟩
        · subst hs1; exact h
        · subst hs1; exact h
      | none =>
        simp only
        refine ih (i + 1) s1 ?_
        obtain ⟨r, _, _, hs1⟩ := processTx_none_cases env hdr true i tx s s1 hpt
        subst hs1
        exact Or.inr rfl

theorem runSeries_generate_bloom (env : Env) (blk : Block) (s : Store) :
    ((runSeries env true blk s).1).validReceiptCount = 0 ∨
      ((runSeries env true blk s).1).headerBloom = ((runSeries env true blk s).1).bloom := by
  unfold runSeries
  cases hb : env.beforeBlockErr with
  | some e => exact Or.inl rfl
  | none =>
    cases hp : processTransactions env blk.header true blk.transactions 0
        (initLoopState blk s) with
    | mk ls err =>
      have h0 : ls.validReceiptCount = 0 ∨ ls.headerBloom = ls.bloom := by
        have h1 := processTransactions_generate_bloom env blk.header blk.transactions 0
          (initLoopState blk s) (Or.inl rfl)
        rwa [hp] at h1
      cases err with
      | none =>
        cases hpay : payOmmersAndMiner env blk ls.store with
        | mk st2 err2 => simpa using h0
      | some e => simpa using h0

/-- Claim C10 counterexample: generate mode, a block whose header bloom
field starts at 5 and whose only transaction fails in the executor.
After the block-fatal error the header bloom still holds 5, not the
aggregate of the (zero) transactions processed before the failure,
which is the empty bloom 0. -/
theorem claim_C10_counterexample :
    (runBlock envExecFail storeC optsGenBloom).cbErr = some (Err.exec 0) ∧
    (runBlock envExecFail storeC optsGenBloom).header = some headerBloom5 ∧
    headerBloom5.bloom = 5 ∧
    ¬ headerBloom5.bloom = 0 :=
  ⟨rfl, rfl, rfl, by decide⟩

/-- Claim C10 (amended): in generate mode the header bloom field is
overwritten with the running aggregate immediately after every
successful transaction, and the mutation is not undone by the revert on
a block-fatal error: whenever at least one transaction succeeded before
the failure, the returned header carries the final aggregate bloom,
even though every account mutation is rolled back (with zero successful
transactions the header bloom keeps its incoming value). -/
theorem claim_C10_header_bloom (env : Env) (store0 : Store) (opts : Opts) (blk : Block)
    (ls : TxLoopState) (e : Err)
    (s2 : TxLoopState) (j : Nat) (tx2 : Tx)
    (hb : opts.block = some blk)
    (hgen : opts.generate = true)
    (hrun : runSeries env opts.generate blk
      (Store.checkpoint (initialStore store0 opts)) = (ls, some e))
    (hcnt : 1 ≤ ls.validReceiptCount)
    (hok : (processTx env blk.header true j tx2 s2).2 = none) :
    ((processTx env blk.header true j tx2 s2).1).headerBloom
      = ((processTx env blk.header true j tx2 s2).1).bloom ∧
    (runBlock env store0 opts).header = some { blk.header with bloom := ls.bloom } ∧
    (runBlock env store0 opts).store.balances = store0.balances ∧
    (runBlock env store0 opts).cbErr = some e := by
  have hhb : ls.headerBloom = ls.bloom := by
    rw [hgen] at hrun
    have h1 := runSeries_generate_bloom env blk (Store.checkpoint (initialStore store0 opts))
    rw [hrun] at h1
    dsimp only at h1
    rcases h1 with h1 | h1
    · exact absurd h1 (by omega)
    · exact h1
  have hout : runBlock env store0 opts = parseBlockResults env opts.generate blk ls (some e) := by
    simp only [runBlock, hb]
    rw [hrun, hgen]
  have hls : ls.store.checkpoints =
      ((initialStore store0 opts).root, (initialStore store0 opts).balances)
        :: store0.checkpoints := by
    have h0 := runSeries_store_checkpoints env opts.generate blk
      (Store.checkpoint (initialStore store0 opts))
    rw [hrun] at h0
    simpa [Store.checkpoint, initialStore_checkpoints] using h0
  refine ⟨?_, ?_, ?_, ?_⟩
  · obtain ⟨r, _, _, hs1⟩ := processTx_none_cases env blk.header true j tx2 s2 _
      (Prod.ext rfl hok)
    have hh := congrArg TxLoopState.headerBloom hs1
    have hbm := congrArg TxLoopState.bloom hs1
    simp only at hh hbm
    rw [hh, hbm]
    simp
  · rw [hout]
    unfold parseBlockResults
    dsimp only
    rw [hhb]
  · rw [hout]
    unfold parseBlockResults
    dsimp only
    rw [Store.revert_eq ls.store _ _ _ hls]
    exact initialStore_balances store0 opts
  · rw [hout]
    rfl

/-- Witness for the amended claim C10: generate mode, first transaction
succeeds (bloom 1), second fails; the header keeps aggregate bloom 1
while balances are rolled back. -/
theorem claim_C10_witness :
    ((processTx envOkThenFail blockTwoTx.header true 0 { gasLimit := 10 }
      (initLoopState blockTwoTx storeC)).1).headerBloom
      = ((processTx envOkThenFail blockTwoTx.header true 0 { gasLimit := 10 }
          (initLoopState blockTwoTx storeC)).1).bloom ∧
    (runBlock envOkThenFail storeC optsGenTwoTx).header
      = some { blockTwoTx.header with
          bloom := ((runSeries envOkThenFail optsGenTwoTx.generate blockTwoTx
            (Store.checkpoint (initialStore storeC optsGenTwoTx))).1).bloom } ∧
    (runBlock envOkThenFail storeC optsGenTwoTx).store.balances = storeC.balances ∧
    (runBlock envOkThenFail storeC optsGenTwoTx).cbErr = some (Err.exec 7) :=
  claim_C10_header_bloom envOkThenFail storeC optsGenTwoTx blockTwoTx _ _
    (initLoopState blockTwoTx storeC) 0 { gasLimit := 10 }
    rfl rfl (Prod.ext rfl rfl) (by decide) rfl

end RunBlock
